import Mathlib

/-!
Verification of the audio capture-to-stream core:
the `NativeAudioProcessor` ring buffer (app/public/native-audio-processor.js),
the recording state machine (`useRecordingStore`), and the native audio
bridge (`createNativeAudioBridge` in app/src/lib/nativeAudio.ts).

Samples are modelled as integers: the code only moves sample values around
(bulk copies and zero-fill); it never computes with them, so the carrier
type is irrelevant to the properties proved here.
-/

/-- State of the `NativeAudioProcessor` ring buffer: `bufferSize` is the
capacity, `buffer` the backing `Float32Array` (as a list of fixed length),
and `writeIndex`/`readIndex`/`availableSamples` the bookkeeping fields. -/
structure RingBuffer where
  bufferSize : Nat
  buffer : List Int
  writeIndex : Nat
  readIndex : Nat
  availableSamples : Nat
  deriving Repr, DecidableEq

/-- The constructor of `NativeAudioProcessor`: a zeroed backing array and
zero indices. The source fixes `bufferSize = 4800`; the capacity is kept
as a parameter so that the spec's capacity-10 scenarios are expressible. -/
def initBuffer (c : Nat) : RingBuffer :=
  { bufferSize := c
    buffer := List.replicate c 0
    writeIndex := 0
    readIndex := 0
    availableSamples := 0 }

/-- The buffer size used by the source constructor (100 ms at 48 kHz). -/
def nativeBufferSize : Nat := 4800

/-- `Float32Array.set(src, offset)`: overwrites `target` at `offset` with
`src`; raises a `RangeError` (modelled as `none`) when `offset + src.length`
exceeds the target length. -/
def setAt (target : List Int) (offset : Nat) (src : List Int) : Option (List Int) :=
  if offset + src.length ≤ target.length then
    some (target.take offset ++ src ++ target.drop (offset + src.length))
  else
    none

/-- The `audio-data` branch of `port.onmessage`: write `samples` into the
ring buffer, splitting the copy at the capacity boundary, then advance
`writeIndex` modulo the capacity and saturate `availableSamples` at the
capacity. `none` models the `RangeError` thrown by `Float32Array.set`
when the wrap-around remainder does not fit. -/
def writeSamples (rb : RingBuffer) (samples : List Int) : Option RingBuffer :=
  let len := samples.length
  let firstPart := min len (rb.bufferSize - rb.writeIndex)
  (setAt rb.buffer rb.writeIndex (samples.take firstPart)).bind fun buf1 =>
    (if firstPart < len then setAt buf1 0 (samples.drop firstPart) else some buf1).bind
      fun buf2 =>
        some { rb with
          buffer := buf2
          writeIndex := (rb.writeIndex + len) % rb.bufferSize
          availableSamples := min (rb.availableSamples + len) rb.bufferSize }

/-- One `onmessage` delivery as seen by later messages: a completed write
commits the new state; a thrown `RangeError` propagates out of the handler
after the first bulk copy already ran, so storage may hold the first
segment but the index updates are never reached. -/
def writeStep (rb : RingBuffer) (samples : List Int) : RingBuffer :=
  match writeSamples rb samples with
  | some rb' => rb'
  | none =>
    match setAt rb.buffer rb.writeIndex
        (samples.take (min samples.length (rb.bufferSize - rb.writeIndex))) with
    | some buf1 => { rb with buffer := buf1 }
    | none => rb

/-- A sequence of `audio-data` deliveries. -/
def writeSeq (rb : RingBuffer) (chunks : List (List Int)) : RingBuffer :=
  chunks.foldl writeStep rb

/-- The read path of `process`: when at least `frameSize` samples are
available, copy them out of the ring (splitting at the capacity boundary)
and advance `readIndex`/`availableSamples`; otherwise output a frame of
silence and leave the state untouched (underrun). -/
def readFrame (rb : RingBuffer) (frameSize : Nat) : List Int × RingBuffer :=
  if frameSize ≤ rb.availableSamples then
    let firstPart := min frameSize (rb.bufferSize - rb.readIndex)
    let part1 := (rb.buffer.drop rb.readIndex).take firstPart
    let part2 := rb.buffer.take (frameSize - firstPart)
    (part1 ++ part2,
      { rb with
        readIndex := (rb.readIndex + frameSize) % rb.bufferSize
        availableSamples := rb.availableSamples - frameSize })
  else
    (List.replicate frameSize 0, rb)

/-- The frame size hard-coded in `process`. -/
def workletFrameSize : Nat := 128

/-- `k` consecutive render callbacks, each reading one frame of `f`
samples; returns the concatenated output. -/
def readAll (rb : RingBuffer) (k f : Nat) : List Int × RingBuffer :=
  match k with
  | 0 => ([], rb)
  | k' + 1 =>
    let r1 := readFrame rb f
    let rest := readAll r1.2 k' f
    (r1.1 ++ rest.1, rest.2)

/-! ## Recording state machine (`useRecordingStore`) -/

/-- The explicit connection/recording state of `useRecordingStore`. -/
inductive ConnectionState where
  | disconnected
  | connecting
  | idle
  | recording
  | processing
  deriving Repr, DecidableEq

/-- An observable side effect issued to the session client. -/
inductive Effect where
  | enableMic (flag : Bool)
  | clientMessage (name : String)
  deriving Repr, DecidableEq

/-- The session client (`PipecatClient`): each call either succeeds
(`true`) or throws (`false`). `sendOk name` is `sendClientMessage name {}`
and `micOk on` is `enableMic(on)`. -/
structure Client where
  sendOk : String → Bool
  micOk : Bool → Bool

/-- The store held by `useRecordingStore`. -/
structure StoreState where
  state : ConnectionState
  client : Option Client
  serverUrl : Option String

/-- `startConnecting`: `disconnected → connecting`, otherwise a no-op. -/
def startConnecting (s : StoreState) : StoreState :=
  if s.state = ConnectionState.disconnected then
    { s with state := ConnectionState.connecting }
  else s

/-- `handleConnected`: `connecting`/`disconnected → idle`, else a no-op. -/
def handleConnected (s : StoreState) : StoreState :=
  if s.state = ConnectionState.connecting ∨ s.state = ConnectionState.disconnected then
    { s with state := ConnectionState.idle }
  else s

/-- `handleDisconnected`: unconditionally sets `disconnected`. -/
def handleDisconnected (s : StoreState) : StoreState :=
  { s with state := ConnectionState.disconnected }

/-- `handleResponse`: `processing → idle`, otherwise a no-op. -/
def handleResponse (s : StoreState) : StoreState :=
  if s.state = ConnectionState.processing then
    { s with state := ConnectionState.idle }
  else s

/-- `reset`: sets `disconnected` and clears the client. -/
def resetStore (s : StoreState) : StoreState :=
  { s with state := ConnectionState.disconnected, client := none }

/-- `startRecording`: rejected unless `state = idle` and a client is set;
then `sendClientMessage("start-recording", {})` and `enableMic(true)` run
inside a try block, and only if both succeed is `state := recording`
committed and `true` returned. Returns the success flag, the post-state,
and the list of side effects that actually completed. -/
def startRecording (s : StoreState) : Bool × StoreState × List Effect :=
  match s.client with
  | none => (false, s, [])
  | some c =>
    if s.state = ConnectionState.idle then
      if c.sendOk "start-recording" then
        if c.micOk true then
          (true, { s with state := ConnectionState.recording },
            [Effect.clientMessage "start-recording", Effect.enableMic true])
        else (false, s, [Effect.clientMessage "start-recording"])
      else (false, s, [])
    else (false, s, [])

/-- `stopRecording`: rejected unless `state = recording` and a client is
set; then `enableMic(false)` and `sendClientMessage("stop-recording", {})`
run inside a try block, and only if both succeed is `state := processing`
committed and `true` returned. -/
def stopRecording (s : StoreState) : Bool × StoreState × List Effect :=
  match s.client with
  | none => (false, s, [])
  | some c =>
    if s.state = ConnectionState.recording then
      if c.micOk false then
        if c.sendOk "stop-recording" then
          (true, { s with state := ConnectionState.processing },
            [Effect.enableMic false, Effect.clientMessage "stop-recording"])
        else (false, s, [Effect.enableMic false])
      else (false, s, [])
    else (false, s, [])

/-! ## Native audio bridge (`createNativeAudioBridge`) -/

/-- Outcomes of the external calls a `start` may make: resuming the
suspended `AudioContext`, registering the `native-audio-data` listener,
and `invoke("start_native_mic")`. `false` means the promise rejects. -/
structure CaptureEnv where
  resumeOk : Bool
  listenOk : Bool
  startCaptureOk : Bool

/-- Bridge state: whether the `AudioContext` is suspended, whether the
`unlisten` handle is held, and how many inbound-chunk subscriptions are
actively registered (each active subscription forwards every inbound
chunk to the worklet, i.e. one ring-buffer write per chunk each). -/
structure BridgeState where
  suspended : Bool
  unlisten : Bool
  activeSubs : Nat
  deriving Repr, DecidableEq

/-- The body of `start` after the resume check: register the listener
only when no `unlisten` handle is held, then start native capture.
Returns whether `start` resolved, plus the post-state (mutations made
before a rejection persist). -/
def startAfterResume (env : CaptureEnv) (s : BridgeState) : Bool × BridgeState :=
  if !s.unlisten then
    if env.listenOk then
      (env.startCaptureOk,
        { s with unlisten := true, activeSubs := s.activeSubs + 1 })
    else (false, s)
  else (env.startCaptureOk, s)

/-- `start(deviceId?)`: resume the context if suspended (rejecting if the
resume rejects), then `startAfterResume`. -/
def startBridge (env : CaptureEnv) (s : BridgeState) : Bool × BridgeState :=
  if s.suspended then
    if env.resumeOk then startAfterResume env { s with suspended := false }
    else (false, s)
  else startAfterResume env s

/-- `stop()`: stop native capture (fire-and-forget), call the `unlisten`
handle if held, and clear it. -/
def stopBridge (s : BridgeState) : BridgeState :=
  if s.unlisten then { s with unlisten := false, activeSubs := s.activeSubs - 1 }
  else s

/-- A sequence of `start` calls (each with its own external outcomes). -/
def startSeq (envs : List CaptureEnv) (s : BridgeState) : BridgeState :=
  envs.foldl (fun st e => (startBridge e st).2) s

/-! ## Ring buffer lemmas -/

lemma setAt_eq_some (target : List Int) (off : Nat) (src : List Int)
    (h : off + src.length ≤ target.length) :
    setAt target off src
      = some (target.take off ++ src ++ target.drop (off + src.length)) := by
  simp [setAt, h]

lemma setAt_length (target : List Int) (off : Nat) (src : List Int) (t' : List Int)
    (h : setAt target off src = some t') : t'.length = target.length := by
  unfold setAt at h
  split at h
  · obtain rfl := Option.some.inj h
    simp only [List.length_append, List.length_take, List.length_drop]
    omega
  · exact absurd h (by simp)

lemma writeSamples_some_spec (rb : RingBuffer) (samples : List Int) (rb' : RingBuffer)
    (h : writeSamples rb samples = some rb') :
    rb'.readIndex = rb.readIndex ∧ rb'.bufferSize = rb.bufferSize ∧
    rb'.writeIndex = (rb.writeIndex + samples.length) % rb.bufferSize ∧
    rb'.availableSamples = min (rb.availableSamples + samples.length) rb.bufferSize ∧
    rb'.buffer.length = rb.buffer.length := by
  simp only [writeSamples, Option.bind_eq_some] at h
  obtain ⟨buf1, h1, buf2, h2, h3⟩ := h
  obtain rfl := Option.some.inj h3
  have hl1 := setAt_length _ _ _ _ h1
  have hl2 : buf2.length = rb.buffer.length := by
    split at h2
    · exact (setAt_length _ _ _ _ h2).trans hl1
    · obtain rfl := Option.some.inj h2
      exact hl1
  simp [hl2]

lemma writeStep_frame (rb : RingBuffer) (samples : List Int) :
    (writeStep rb samples).readIndex = rb.readIndex
    ∧ (writeStep rb samples).bufferSize = rb.bufferSize
    ∧ (writeStep rb samples).buffer.length = rb.buffer.length := by
  cases h : writeSamples rb samples with
  | some rb' =>
    have hs := writeSamples_some_spec rb samples rb' h
    simp only [writeStep, h]
    exact ⟨hs.1, hs.2.1, hs.2.2.2.2⟩
  | none =>
    simp only [writeStep, h]
    cases h2 : setAt rb.buffer rb.writeIndex
        (samples.take (min samples.length (rb.bufferSize - rb.writeIndex))) with
    | some buf1 => simp [setAt_length _ _ _ _ h2]
    | none => simp

lemma writeStep_avail (rb : RingBuffer) (samples : List Int) :
    (writeStep rb samples).availableSamples
        = min (rb.availableSamples + samples.length) rb.bufferSize
    ∨ (writeStep rb samples).availableSamples = rb.availableSamples := by
  cases h : writeSamples rb samples with
  | some rb' =>
    have hs := writeSamples_some_spec rb samples rb' h
    simp only [writeStep, h]
    exact Or.inl hs.2.2.2.1
  | none =>
    simp only [writeStep, h]
    cases h2 : setAt rb.buffer rb.writeIndex
        (samples.take (min samples.length (rb.bufferSize - rb.writeIndex))) with
    | some buf1 => simp
    | none => simp

lemma writeSeq_cons (rb : RingBuffer) (ch : List Int) (rest : List (List Int)) :
    writeSeq rb (ch :: rest) = writeSeq (writeStep rb ch) rest := rfl

/-- C10: the ring-buffer write path mutates only storage, `writeIndex`
and `availableSamples`; it never touches `readIndex` (even when the
incoming chunk overwrites unread samples) nor the capacity. -/
theorem write_preserves_read_index (rb : RingBuffer) (samples : List Int) :
    (writeStep rb samples).readIndex = rb.readIndex
    ∧ (writeStep rb samples).bufferSize = rb.bufferSize := by
  exact ⟨(writeStep_frame rb samples).1, (writeStep_frame rb samples).2.1⟩

/-- C5: reading a frame while fewer than `frameSize` samples are
available returns a frame of silence and leaves the buffer (in
particular `readIndex` and `availableSamples`) unchanged; the underrun
path is total. -/
theorem read_underrun_silence (rb : RingBuffer) (f : Nat)
    (h : rb.availableSamples < f) :
    readFrame rb f = (List.replicate f 0, rb) := by
  unfold readFrame
  rw [if_neg (by omega)]

/-- Witness for C5: the empty freshly constructed buffer with the
source's constants (capacity 4800, frame size 128). -/
theorem read_underrun_silence_witness :
    readFrame (initBuffer 4800) 128 = (List.replicate 128 0, initBuffer 4800) :=
  read_underrun_silence (initBuffer 4800) 128 (by decide)

/-- C1 (divergence evaluation): with capacity 10, writing the 12 samples
1..12 leaves `availableSamples = 10` as claimed, but since the write
never advances `readIndex` past the overwritten samples, the subsequent
read of 10 samples returns `[11, 12, 3, 4, 5, 6, 7, 8, 9, 10]` — the
last 10 samples rotated, not `[3, ..., 12]` in order as the spec's
oldest-overwrite semantics requires. -/
theorem scenario_a_overflow_read :
    (writeStep (initBuffer 10) [1, 2, 3, 4, 5, 6, 7, 8, 9, 10, 11, 12]).availableSamples = 10
    ∧ (readFrame (writeStep (initBuffer 10) [1, 2, 3, 4, 5, 6, 7, 8, 9, 10, 11, 12]) 10).1
        = [11, 12, 3, 4, 5, 6, 7, 8, 9, 10]
    ∧ (readFrame (writeStep (initBuffer 10) [1, 2, 3, 4, 5, 6, 7, 8, 9, 10, 11, 12]) 10).1
        ≠ [3, 4, 5, 6, 7, 8, 9, 10, 11, 12] := by
  decide

/-- C7 (counterexample): the write is not total — a single chunk of 21
samples into the empty capacity-10 buffer makes the wrap-around copy
exceed the backing array, so `Float32Array.set` raises a `RangeError`
(modelled as `none`). -/
theorem write_overflow_raises_counterexample :
    writeSamples (initBuffer 10) (List.replicate 21 0) = none := by
  decide

/-- C7 (amended): the write raises no error as long as the chunk length
is at most `2 * capacity - writeIndex`, i.e. whenever the wrap-around
remainder fits in the backing array; this covers every overflow the
overwrite policy documents (chunks up to and beyond the free space, and
up to twice the capacity). -/
theorem write_no_raise_within_double_capacity (rb : RingBuffer) (samples : List Int)
    (hbuf : rb.buffer.length = rb.bufferSize)
    (hw : rb.writeIndex ≤ rb.bufferSize)
    (hlen : samples.length ≤ 2 * rb.bufferSize - rb.writeIndex) :
    (writeSamples rb samples).isSome = true := by
  simp only [writeSamples]
  have h1 : rb.writeIndex
      + (samples.take (min samples.length (rb.bufferSize - rb.writeIndex))).length
        ≤ rb.buffer.length := by
    rw [List.length_take, hbuf]; omega
  rw [setAt_eq_some _ _ _ h1]
  simp only [Option.some_bind]
  by_cases h2 : min samples.length (rb.bufferSize - rb.writeIndex) < samples.length
  · rw [if_pos h2]
    have h3 : 0 + (samples.drop (min samples.length (rb.bufferSize - rb.writeIndex))).length
        ≤ (rb.buffer.take rb.writeIndex
            ++ samples.take (min samples.length (rb.bufferSize - rb.writeIndex))
            ++ rb.buffer.drop (rb.writeIndex
                + (samples.take (min samples.length (rb.bufferSize - rb.writeIndex))).length)).length := by
      simp only [List.length_append, List.length_take, List.length_drop]
      omega
    rw [setAt_eq_some _ _ _ h3]
    simp
  · rw [if_neg h2]
    simp

/-- Witness for the amended C7: a 15-sample chunk (beyond both the free
space and the capacity of the empty capacity-10 buffer) is absorbed
without error. -/
theorem write_no_raise_witness :
    (writeSamples (initBuffer 10) (List.replicate 15 0)).isSome = true :=
  write_no_raise_within_double_capacity (initBuffer 10) (List.replicate 15 0)
    (by decide) (by decide) (by decide)

/-- C4 (counterexample): the `min (previous + len, capacity)` equation does
not hold after every single write — a write whose wrap-around copy raises
(21 samples into the empty capacity-10 buffer) aborts before the counter
update, so `availableSamples` stays `0` instead of `min (0 + 21, 10) = 10`. -/
theorem write_available_samples_counterexample :
    (writeStep (initBuffer 10) (List.replicate 21 0)).availableSamples = 0
    ∧ (writeStep (initBuffer 10) (List.replicate 21 0)).availableSamples
        ≠ min ((initBuffer 10).availableSamples + (List.replicate 21 (0 : Int)).length)
            (initBuffer 10).bufferSize := by
  decide

/-- C4 (amended): over any sequence of deliveries `availableSamples` never
exceeds the capacity; a write that completes sets `availableSamples` to
`min (previous + len, capacity)` exactly; and a write that raises leaves
`availableSamples` unchanged. -/
theorem write_available_samples_bound :
    (∀ (rb : RingBuffer) (chunks : List (List Int)),
      rb.availableSamples ≤ rb.bufferSize →
      (writeSeq rb chunks).availableSamples ≤ (writeSeq rb chunks).bufferSize)
    ∧ (∀ (rb : RingBuffer) (samples : List Int) (rb' : RingBuffer),
      writeSamples rb samples = some rb' →
      rb'.availableSamples = min (rb.availableSamples + samples.length) rb.bufferSize)
    ∧ (∀ (rb : RingBuffer) (samples : List Int),
      writeSamples rb samples = none →
      (writeStep rb samples).availableSamples = rb.availableSamples) := by
  refine ⟨?_, ?_, ?_⟩
  · intro rb chunks
    induction chunks generalizing rb with
    | nil => intro h; simpa [writeSeq]
    | cons ch rest ih =>
      intro h
      rw [writeSeq_cons]
      apply ih
      have hb := (writeStep_frame rb ch).2.1
      rcases writeStep_avail rb ch with h1 | h1 <;> rw [h1, hb] <;> omega
  · intro rb samples rb' h
    exact (writeSamples_some_spec rb samples rb' h).2.2.2.1
  · intro rb samples h
    simp only [writeStep, h]
    cases h2 : setAt rb.buffer rb.writeIndex
        (samples.take (min samples.length (rb.bufferSize - rb.writeIndex))) with
    | some buf1 => simp
    | none => simp

/-- Witness for the amended C4: a concrete overflowing sequence on a
capacity-3 buffer, a concrete completed write on a capacity-10 buffer,
and a concrete raising write that leaves the counter unchanged. -/
theorem write_available_samples_bound_witness :
    ((writeSeq (initBuffer 3) [[1, 2], [3, 4, 5]]).availableSamples
        ≤ (writeSeq (initBuffer 3) [[1, 2], [3, 4, 5]]).bufferSize)
    ∧ (writeStep (initBuffer 10) [1, 2, 3]).availableSamples
        = min ((initBuffer 10).availableSamples + [1, 2, 3].length)
            (initBuffer 10).bufferSize
    ∧ (writeStep (initBuffer 10) (List.replicate 21 0)).availableSamples
        = (initBuffer 10).availableSamples :=
  ⟨write_available_samples_bound.1 (initBuffer 3) [[1, 2], [3, 4, 5]] (by decide),
   write_available_samples_bound.2.1 (initBuffer 10) [1, 2, 3]
      (writeStep (initBuffer 10) [1, 2, 3]) (by decide),
   write_available_samples_bound.2.2 (initBuffer 10) (List.replicate 21 0) (by decide)⟩

/-! ## Recording state machine theorems -/

/-- C2: every transition operation either leaves the store unchanged or
moves it exactly as the transition table permits; the boolean operations
report `false` and leave the store unchanged whenever invoked from an
illegal state or with no session client — in particular (Scenario C)
`startRecording` in `idle` with a null client returns `false` and keeps
the state `idle`. -/
theorem recording_state_machine_legality (s : StoreState) :
    (startConnecting s = s
      ∨ (s.state = ConnectionState.disconnected
          ∧ startConnecting s = { s with state := ConnectionState.connecting }))
    ∧ (handleConnected s = s
      ∨ ((s.state = ConnectionState.connecting ∨ s.state = ConnectionState.disconnected)
          ∧ handleConnected s = { s with state := ConnectionState.idle }))
    ∧ handleDisconnected s = { s with state := ConnectionState.disconnected }
    ∧ (handleResponse s = s
      ∨ (s.state = ConnectionState.processing
          ∧ handleResponse s = { s with state := ConnectionState.idle }))
    ∧ resetStore s = { s with state := ConnectionState.disconnected, client := none }
    ∧ ((startRecording s).1 = true →
        s.state = ConnectionState.idle ∧ s.client ≠ none
          ∧ (startRecording s).2.1 = { s with state := ConnectionState.recording })
    ∧ ((startRecording s).1 = false → (startRecording s).2.1 = s)
    ∧ ((stopRecording s).1 = true →
        s.state = ConnectionState.recording ∧ s.client ≠ none
          ∧ (stopRecording s).2.1 = { s with state := ConnectionState.processing })
    ∧ ((stopRecording s).1 = false → (stopRecording s).2.1 = s)
    ∧ (s.state ≠ ConnectionState.idle ∨ s.client = none →
        (startRecording s).1 = false ∧ (startRecording s).2.1 = s)
    ∧ (s.state ≠ ConnectionState.recording ∨ s.client = none →
        (stopRecording s).1 = false ∧ (stopRecording s).2.1 = s)
    ∧ (s.state = ConnectionState.idle → s.client = none →
        startRecording s = (false, s, [])) := by
  obtain ⟨st, cl, u⟩ := s
  cases cl with
  | none =>
    cases st <;>
      simp [startConnecting, handleConnected, handleDisconnected, handleResponse,
        resetStore, startRecording, stopRecording]
  | some c =>
    cases st <;>
      cases h1 : c.sendOk "start-recording" <;>
      cases h2 : c.micOk true <;>
      cases h3 : c.micOk false <;>
      cases h4 : c.sendOk "stop-recording" <;>
      simp [startConnecting, handleConnected, handleDisconnected, handleResponse,
        resetStore, startRecording, stopRecording, h1, h2, h3, h4]

/-- Witness for C2 at Scenario C: `idle` with no client rejects
`startRecording` and keeps the store unchanged. -/
theorem recording_state_machine_legality_witness :
    startRecording { state := ConnectionState.idle, client := none, serverUrl := none }
      = (false, { state := ConnectionState.idle, client := none, serverUrl := none }, []) :=
  (recording_state_machine_legality
    { state := ConnectionState.idle, client := none, serverUrl := none
      }).2.2.2.2.2.2.2.2.2.2.2 rfl rfl

/-- C3: `startRecording`/`stopRecording` are atomic with respect to the
state: with a session client present and the legal pre-state, if every
side effect succeeds the operation returns `true`, commits the single
legal state change, and emits exactly one control message of the
corresponding name and one `enableMic` call; if any side effect throws,
the operation returns `false` and the stored state is unchanged. -/
theorem start_stop_recording_atomicity (s : StoreState) (c : Client)
    (hc : s.client = some c) :
    (s.state = ConnectionState.idle →
      (c.sendOk "start-recording" = true → c.micOk true = true →
        startRecording s
          = (true, { s with state := ConnectionState.recording },
              [Effect.clientMessage "start-recording", Effect.enableMic true]))
      ∧ ((c.sendOk "start-recording" = false ∨ c.micOk true = false) →
        (startRecording s).1 = false ∧ (startRecording s).2.1 = s))
    ∧ (s.state = ConnectionState.recording →
      (c.micOk false = true → c.sendOk "stop-recording" = true →
        stopRecording s
          = (true, { s with state := ConnectionState.processing },
              [Effect.enableMic false, Effect.clientMessage "stop-recording"]))
      ∧ ((c.micOk false = false ∨ c.sendOk "stop-recording" = false) →
        (stopRecording s).1 = false ∧ (stopRecording s).2.1 = s)) := by
  obtain ⟨st, cl, u⟩ := s
  obtain rfl : cl = some c := hc
  cases h1 : c.sendOk "start-recording" <;>
    cases h2 : c.micOk true <;>
    cases h3 : c.micOk false <;>
    cases h4 : c.sendOk "stop-recording" <;>
    constructor <;> rintro rfl <;>
    simp [startRecording, stopRecording, h1, h2, h3, h4]

/-- Witness for C3: Scenario D with an always-succeeding client — from
`idle`, `startRecording` returns `true`, moves to `recording`, and emits
exactly the start-recording message and one `enableMic(true)`. -/
theorem start_stop_recording_atomicity_witness :
    startRecording
        { state := ConnectionState.idle,
          client := some { sendOk := fun _ => true, micOk := fun _ => true },
          serverUrl := none }
      = (true,
          { state := ConnectionState.recording,
            client := some { sendOk := fun _ => true, micOk := fun _ => true },
            serverUrl := none },
          [Effect.clientMessage "start-recording", Effect.enableMic true]) :=
  ((start_stop_recording_atomicity
      { state := ConnectionState.idle,
        client := some { sendOk := fun _ => true, micOk := fun _ => true },
        serverUrl := none }
      { sendOk := fun _ => true, micOk := fun _ => true } rfl).1 rfl).1 rfl rfl

/-! ## Native audio bridge theorems -/

/-- C9: `start` is idempotent for the inbound-chunk subscription: a
successful `start` from an unsubscribed state registers exactly one
subscription; any further `start` (indeed any sequence of them) leaves
the single subscription in place and adds none, so every inbound chunk
still triggers exactly one ring-buffer write; `stop` unregisters it, and
a successful `start` after `stop` re-establishes it. -/
theorem start_idempotent_subscription (env : CaptureEnv) (s : BridgeState) :
    (s.unlisten = false → (startBridge env s).1 = true →
      (startBridge env s).2.unlisten = true
        ∧ (startBridge env s).2.activeSubs = s.activeSubs + 1)
    ∧ (s.unlisten = true →
      (startBridge env s).2.unlisten = true
        ∧ (startBridge env s).2.activeSubs = s.activeSubs)
    ∧ (s.unlisten = true →
      (stopBridge s).unlisten = false ∧ (stopBridge s).activeSubs = s.activeSubs - 1)
    ∧ (∀ envs : List CaptureEnv, s.unlisten = true →
      (startSeq envs s).unlisten = true ∧ (startSeq envs s).activeSubs = s.activeSubs)
    ∧ (s.unlisten = true → (startBridge env (stopBridge s)).1 = true →
      (startBridge env (stopBridge s)).2.unlisten = true
        ∧ (startBridge env (stopBridge s)).2.activeSubs
            = (stopBridge s).activeSubs + 1) := by
  obtain ⟨sp, ul, n⟩ := s
  refine ⟨?_, ?_, ?_, ?_, ?_⟩
  · rintro rfl
    cases sp <;> cases he : env.resumeOk <;> cases hl : env.listenOk <;>
      simp [startBridge, startAfterResume, he, hl]
  · rintro rfl
    cases sp <;> cases he : env.resumeOk <;>
      simp [startBridge, startAfterResume, he]
  · rintro rfl
    simp [stopBridge]
  · intro envs hul
    obtain rfl : ul = true := hul
    induction envs generalizing sp n with
    | nil => simp [startSeq]
    | cons e rest ih =>
      have hstep : (startBridge e ⟨sp, true, n⟩).2
          = ⟨(startBridge e ⟨sp, true, n⟩).2.suspended, true, n⟩ := by
        cases sp <;> cases he : e.resumeOk <;>
          simp [startBridge, startAfterResume, he]
      show ((startSeq rest (startBridge e ⟨sp, true, n⟩).2).unlisten = true
          ∧ (startSeq rest (startBridge e ⟨sp, true, n⟩).2).activeSubs = n)
      rw [hstep]
      exact ih ((startBridge e ⟨sp, true, n⟩).2.suspended) n
  · rintro rfl
    simp only [stopBridge, if_pos]
    cases sp <;> cases he : env.resumeOk <;> cases hl : env.listenOk <;>
      cases hs : env.startCaptureOk <;>
      simp [startBridge, startAfterResume, he, hl, hs]

/-- Witness for C9: from a fresh bridge, one successful `start`
establishes the single subscription. -/
theorem start_idempotent_subscription_witness :
    (startBridge { resumeOk := true, listenOk := true, startCaptureOk := true }
        { suspended := false, unlisten := false, activeSubs := 0 }).2.unlisten = true
    ∧ (startBridge { resumeOk := true, listenOk := true, startCaptureOk := true }
        { suspended := false, unlisten := false, activeSubs := 0 }).2.activeSubs = 0 + 1 :=
  (start_idempotent_subscription
      { resumeOk := true, listenOk := true, startCaptureOk := true }
      { suspended := false, unlisten := false, activeSubs := 0 }).1 rfl rfl

/-- C8 (counterexample): when the capture subsystem rejects the device id
(`start_native_mic` rejects) on a first `start`, the call fails but the
freshly registered inbound-chunk subscription is left registered — the
subscription state is not the same as before the call, contradicting the
claimed cleanup-on-failure. -/
theorem start_failure_subscription_counterexample :
    (startBridge { resumeOk := true, listenOk := true, startCaptureOk := false }
        { suspended := true, unlisten := false, activeSubs := 0 }).1 = false
    ∧ (startBridge { resumeOk := true, listenOk := true, startCaptureOk := false }
        { suspended := true, unlisten := false, activeSubs := 0 }).2.unlisten
        ≠ ({ suspended := true, unlisten := false, activeSubs := 0 } : BridgeState).unlisten
    ∧ (startBridge { resumeOk := true, listenOk := true, startCaptureOk := false }
        { suspended := true, unlisten := false, activeSubs := 0 }).2.activeSubs
        ≠ ({ suspended := true, unlisten := false, activeSubs := 0 } : BridgeState).activeSubs := by
  decide

/-- C8 (amended): a failed `start` always reports the failure to the
caller, and never leaves a half-registered or duplicated subscription:
afterwards the subscription state is either exactly as before the call,
or — only when the capture subsystem rejected the device id right after
the listener was newly registered — that one fully established
subscription remains. -/
theorem start_failure_reporting_amended (env : CaptureEnv) (s : BridgeState) :
    ((s.suspended = true ∧ env.resumeOk = false) → startBridge env s = (false, s))
    ∧ (env.startCaptureOk = false → (startBridge env s).1 = false)
    ∧ ((startBridge env s).1 = false →
        ((startBridge env s).2.unlisten = s.unlisten
          ∧ (startBridge env s).2.activeSubs = s.activeSubs)
        ∨ (s.unlisten = false ∧ env.startCaptureOk = false
          ∧ (startBridge env s).2.unlisten = true
          ∧ (startBridge env s).2.activeSubs = s.activeSubs + 1)) := by
  obtain ⟨sp, ul, n⟩ := s
  cases sp <;> cases ul <;> cases he : env.resumeOk <;> cases hl : env.listenOk <;>
    cases hs : env.startCaptureOk <;>
    simp [startBridge, startAfterResume, he, hl, hs]

/-- Witness for the amended C8: a rejected device id on a fresh bridge —
the failure is reported and exactly the one new subscription remains. -/
theorem start_failure_reporting_amended_witness :
    (startBridge { resumeOk := true, listenOk := true, startCaptureOk := false }
        { suspended := false, unlisten := false, activeSubs := 0 }).1 = false :=
  (start_failure_reporting_amended
      { resumeOk := true, listenOk := true, startCaptureOk := false }
      { suspended := false, unlisten := false, activeSubs := 0 }).2.1 rfl
/-! ## Round-trip lemmas -/

lemma writeSamples_no_wrap (rb : RingBuffer) (samples : List Int)
    (hbuf : rb.buffer.length = rb.bufferSize)
    (h : rb.writeIndex + samples.length ≤ rb.bufferSize) :
    writeSamples rb samples = some { rb with
      buffer := rb.buffer.take rb.writeIndex ++ samples
          ++ rb.buffer.drop (rb.writeIndex + samples.length)
      writeIndex := (rb.writeIndex + samples.length) % rb.bufferSize
      availableSamples := min (rb.availableSamples + samples.length) rb.bufferSize } := by
  have hmin : min samples.length (rb.bufferSize - rb.writeIndex) = samples.length := by
    omega
  simp only [writeSamples, hmin, List.take_length]
  rw [setAt_eq_some _ _ _ (by omega)]
  simp

lemma readFrame_contig (rb : RingBuffer) (f : Nat)
    (hf : f ≤ rb.availableSamples)
    (hcontig : rb.readIndex + rb.availableSamples ≤ rb.bufferSize) :
    readFrame rb f = ((rb.buffer.drop rb.readIndex).take f,
      { rb with readIndex := (rb.readIndex + f) % rb.bufferSize
                availableSamples := rb.availableSamples - f }) := by
  have hmin : min f (rb.bufferSize - rb.readIndex) = f := by omega
  simp [readFrame, hf, hmin]

lemma writeSeq_linear (chunks : List (List Int)) (rb : RingBuffer)
    (hbuf : rb.buffer.length = rb.bufferSize)
    (hr : rb.readIndex = 0)
    (hw : rb.writeIndex = rb.availableSamples ∧ rb.availableSamples < rb.bufferSize
        ∨ rb.writeIndex = 0 ∧ rb.availableSamples = rb.bufferSize)
    (hcap : rb.availableSamples + (chunks.flatten).length ≤ rb.bufferSize) :
    (writeSeq rb chunks).bufferSize = rb.bufferSize
    ∧ (writeSeq rb chunks).readIndex = 0
    ∧ (writeSeq rb chunks).availableSamples
        = rb.availableSamples + (chunks.flatten).length
    ∧ (writeSeq rb chunks).buffer
        = rb.buffer.take rb.availableSamples ++ chunks.flatten
            ++ rb.buffer.drop (rb.availableSamples + (chunks.flatten).length) := by
  induction chunks generalizing rb with
  | nil =>
    refine ⟨rfl, hr, by simp [writeSeq], ?_⟩
    simp [writeSeq, List.take_append_drop]
  | cons ch rest ih =>
    obtain ⟨c, B, w, r, a⟩ := rb
    dsimp only at hbuf hr hw hcap ⊢
    subst hr
    have hL : ((ch :: rest).flatten).length = ch.length + (rest.flatten).length := by
      simp
    have h1 : w + ch.length ≤ c := by
      rcases hw with ⟨hw1, hw2⟩ | ⟨hw1, hw2⟩ <;> omega
    have hminA : min (a + ch.length) c = a + ch.length := by omega
    have hmid : writeSamples (RingBuffer.mk c B w 0 a) ch
        = some (RingBuffer.mk c (B.take w ++ ch ++ B.drop (w + ch.length))
            ((w + ch.length) % c) 0 (min (a + ch.length) c)) :=
      writeSamples_no_wrap _ ch hbuf h1
    rw [hminA] at hmid
    have hstep : writeStep (RingBuffer.mk c B w 0 a) ch
        = RingBuffer.mk c (B.take w ++ ch ++ B.drop (w + ch.length))
            ((w + ch.length) % c) 0 (a + ch.length) := by
      simp only [writeStep, hmid]
    have hwM : (w + ch.length) % c = a + ch.length ∧ a + ch.length < c
        ∨ (w + ch.length) % c = 0 ∧ a + ch.length = c := by
      rcases hw with ⟨hw1, hw2⟩ | ⟨hw1, hw2⟩
      · rcases Nat.lt_or_ge (a + ch.length) c with hlt | hge
        · exact Or.inl ⟨by rw [hw1]; exact Nat.mod_eq_of_lt hlt, hlt⟩
        · have heq : a + ch.length = c := by omega
          exact Or.inr ⟨by rw [hw1, heq]; exact Nat.mod_self c, heq⟩
      · have hL1 : ch.length = 0 := by omega
        exact Or.inr ⟨by rw [hw1, hL1]; exact Nat.zero_mod c, by omega⟩
    have hbufM : (B.take w ++ ch ++ B.drop (w + ch.length)).length = c := by
      simp only [List.length_append, List.length_take, List.length_drop]
      omega
    have hcapM : (a + ch.length) + (rest.flatten).length ≤ c := by omega
    have ihx := ih (RingBuffer.mk c (B.take w ++ ch ++ B.drop (w + ch.length))
        ((w + ch.length) % c) 0 (a + ch.length)) hbufM rfl hwM hcapM
    have ihC : (writeSeq (RingBuffer.mk c (B.take w ++ ch ++ B.drop (w + ch.length))
          ((w + ch.length) % c) 0 (a + ch.length)) rest).bufferSize = c := ihx.1
    have ihR : (writeSeq (RingBuffer.mk c (B.take w ++ ch ++ B.drop (w + ch.length))
          ((w + ch.length) % c) 0 (a + ch.length)) rest).readIndex = 0 := ihx.2.1
    have ihA : (writeSeq (RingBuffer.mk c (B.take w ++ ch ++ B.drop (w + ch.length))
          ((w + ch.length) % c) 0 (a + ch.length)) rest).availableSamples
        = a + ch.length + (rest.flatten).length := ihx.2.2.1
    have ihB : (writeSeq (RingBuffer.mk c (B.take w ++ ch ++ B.drop (w + ch.length))
          ((w + ch.length) % c) 0 (a + ch.length)) rest).buffer
        = (B.take w ++ ch ++ B.drop (w + ch.length)).take (a + ch.length)
            ++ rest.flatten
            ++ (B.take w ++ ch ++ B.drop (w + ch.length)).drop
                (a + ch.length + (rest.flatten).length) := ihx.2.2.2
    rw [writeSeq_cons, hstep]
    refine ⟨ihC, ihR, ?_, ?_⟩
    · rw [ihA, hL]
      omega
    · rw [ihB]
      simp only [List.flatten_cons]
      rcases hw with ⟨hw1, hw2⟩ | ⟨hw1, hw2⟩
      · rw [hw1]
        have hXlen : (B.take a ++ ch).length = a + ch.length := by
          simp only [List.length_append, List.length_take]
          omega
        have e1 : (B.take a ++ ch ++ B.drop (a + ch.length)).take (a + ch.length)
            = B.take a ++ ch := List.take_left' hXlen
        have e3 : (B.take a ++ ch ++ B.drop (a + ch.length)).drop
              (a + ch.length + (rest.flatten).length)
            = B.drop (a + (ch.length + (rest.flatten).length)) := by
          rw [← List.drop_drop, List.drop_left' hXlen, List.drop_drop]
          congr 1
          omega
        rw [e1, e3]
        simp [List.append_assoc]
      · have hL1 : ch.length = 0 := by omega
        have hL2 : (rest.flatten).length = 0 := by omega
        obtain rfl : ch = [] := List.length_eq_zero.mp hL1
        have hF : rest.flatten = ([] : List Int) := List.length_eq_zero.mp hL2
        rw [hF, hw1, hw2]
        simp only [List.length_nil, Nat.add_zero, List.take_zero, List.drop_zero,
          List.nil_append, List.append_nil]

lemma readAll_linear (k : Nat) (rb : RingBuffer) (f : Nat)
    (hf : 0 < f)
    (hk : k * f ≤ rb.availableSamples)
    (hcontig : rb.readIndex + rb.availableSamples ≤ rb.bufferSize) :
    (readAll rb k f).1 = (rb.buffer.drop rb.readIndex).take (k * f)
    ∧ (readAll rb k f).2.availableSamples = rb.availableSamples - k * f := by
  induction k generalizing rb with
  | zero => simp [readAll]
  | succ k' ih =>
    obtain ⟨c, B, w, r, a⟩ := rb
    dsimp only at hk hcontig ⊢
    have hexp : (k' + 1) * f = k' * f + f := by ring
    rw [hexp] at hk ⊢
    have hfa : f ≤ a := by omega
    have hread : readFrame (RingBuffer.mk c B w r a) f
        = ((B.drop r).take f, RingBuffer.mk c B w ((r + f) % c) (a - f)) :=
      readFrame_contig _ f hfa hcontig
    rcases Nat.lt_or_ge (r + f) c with hlt | hge
    · rw [Nat.mod_eq_of_lt hlt] at hread
      have ihx := ih (RingBuffer.mk c B w (r + f) (a - f))
        (show k' * f ≤ a - f by omega)
        (show (r + f) + (a - f) ≤ c by omega)
      have ihx1 : (readAll (RingBuffer.mk c B w (r + f) (a - f)) k' f).1
          = (B.drop (r + f)).take (k' * f) := ihx.1
      have ihx2 : (readAll (RingBuffer.mk c B w (r + f) (a - f)) k' f).2.availableSamples
          = a - f - k' * f := ihx.2
      simp only [readAll, hread]
      refine ⟨?_, ?_⟩
      · rw [ihx1, Nat.add_comm (k' * f) f, List.take_add, List.drop_drop]
      · rw [ihx2]
        omega
    · have hk0 : k' = 0 := by
        have h0 : k' * f = 0 := by omega
        rcases Nat.mul_eq_zero.mp h0 with h | h
        · exact h
        · omega
      subst hk0
      simp only [readAll, hread]
      constructor
      · simp
      · dsimp only
        omega

/-- C6: from the freshly constructed buffer, any sequence of writes whose
total length fits within the capacity is reproduced exactly, in order, by
a full drain of fixed-size reads (the frame size dividing the total, as a
full drain requires), with `availableSamples` ending at `0`. -/
theorem drain_roundtrip_no_overflow (c : Nat) (chunks : List (List Int)) (f : Nat)
    (hf : 0 < f)
    (htot : (chunks.flatten).length ≤ c)
    (hdvd : f ∣ (chunks.flatten).length) :
    (readAll (writeSeq (initBuffer c) chunks) ((chunks.flatten).length / f) f).1
        = chunks.flatten
    ∧ (readAll (writeSeq (initBuffer c) chunks)
        ((chunks.flatten).length / f) f).2.availableSamples = 0 := by
  have hws := writeSeq_linear chunks (initBuffer c)
    (show (List.replicate c (0 : Int)).length = c from List.length_replicate c 0)
    rfl
    (show 0 = 0 ∧ 0 < c ∨ 0 = 0 ∧ 0 = c by omega)
    (show 0 + (chunks.flatten).length ≤ c by omega)
  have hmul : ((chunks.flatten).length / f) * f = (chunks.flatten).length :=
    Nat.div_mul_cancel hdvd
  have hwsB : (writeSeq (initBuffer c) chunks).buffer
      = (List.replicate c (0 : Int)).take 0 ++ chunks.flatten
          ++ (List.replicate c (0 : Int)).drop (0 + (chunks.flatten).length) :=
    hws.2.2.2
  have hwsA : (writeSeq (initBuffer c) chunks).availableSamples
      = 0 + (chunks.flatten).length := hws.2.2.1
  have hwsR : (writeSeq (initBuffer c) chunks).readIndex = 0 := hws.2.1
  have hwsC : (writeSeq (initBuffer c) chunks).bufferSize = c := hws.1
  have hbufW : (writeSeq (initBuffer c) chunks).buffer
      = chunks.flatten ++ List.replicate (c - (chunks.flatten).length) 0 := by
    rw [hwsB, List.take_zero, List.nil_append, Nat.zero_add, List.drop_replicate]
  have hra := readAll_linear ((chunks.flatten).length / f)
    (writeSeq (initBuffer c) chunks) f hf
    (by rw [hmul, hwsA]; omega)
    (by rw [hwsR, hwsA, hwsC]; omega)
  refine ⟨?_, ?_⟩
  · rw [hra.1, hwsR, hbufW, hmul, List.drop_zero]
    exact List.take_left' rfl
  · rw [hra.2, hwsA, hmul]
    omega

/-- Witness for C6: writing `[1,2]` then `[3,4]` into a fresh capacity-4
buffer and draining with two reads of frame size 2 returns `[1,2,3,4]`. -/
theorem drain_roundtrip_no_overflow_witness :
    (readAll (writeSeq (initBuffer 4) [[1, 2], [3, 4]])
        ((([[1, 2], [3, 4]] : List (List Int)).flatten).length / 2) 2).1
      = ([[1, 2], [3, 4]] : List (List Int)).flatten
    ∧ (readAll (writeSeq (initBuffer 4) [[1, 2], [3, 4]])
        ((([[1, 2], [3, 4]] : List (List Int)).flatten).length / 2) 2).2.availableSamples
      = 0 :=
  drain_roundtrip_no_overflow 4 [[1, 2], [3, 4]] 2 (by decide) (by decide) (by decide)
